import Mathlib

/-!
Shallow embedding of the aah Redis cache provider (package `redis`,
`aahframe.work/cache/provider/redis`): the `entry` codec built on
`encoding/gob`, the buffer pool, and the `redisCache` operations
`Get`, `GetOrPut`, `Put`, `Delete`, `Exists`, together with
`Provider.Create` and the `notacacheMiss` error classifier.

Modelling conventions:
- Go `time.Duration` is an `Int` (nanoseconds).
- A Go `interface{}` value is `Option GoVal`, where `none` is the Go
  `nil` interface and a non-nil value carries its concrete type name
  (as used by `gob.Register`) and an opaque payload.
- `encoding/gob` is an external library; it is modelled at the level
  the adapter relies on: a self-describing stream that round-trips an
  `entry`, refuses to encode a non-nil interface value whose concrete
  type is not in the registry, omits a nil interface field (gob skips
  zero-valued fields), and fails to decode malformed input.
- The go-redis client is modelled as a table of replies, one per
  command the adapter can issue; a healthy client over a functional
  store realises the normal replies.  Side effects are reified as the
  list of commands a call emits, so store-state evolution is obtained
  by applying those commands.
- `redisCache.p` is a pointer to the shared `Provider`; sharing is
  modelled by passing the current `Provider` value to every method
  explicitly, so a later `Provider.Create` is visible to old handles.
-/

/-- Go `time.Duration`: a signed 64-bit nanosecond count, modelled as `Int`. -/
abbrev Duration := Int

/-- A non-nil Go `interface{}` value: its concrete type name (the name
`gob.Register` records) and an opaque rendering of its data. -/
structure GoVal where
  typeName : String
  payload : String
deriving DecidableEq, Repr

/-- The stored unit (source `type entry struct`): TTL and the wrapped value.
`V : Option GoVal` models the `interface{}` field, `none` being Go `nil`. -/
structure entry where
  D : Duration
  V : Option GoVal
deriving DecidableEq, Repr

/-- The gob type registry: the set of concrete type names made known via
`gob.Register` (the provider registers `entry{}` itself in `Init`). -/
abbrev Registry := List String

/-- Whether a concrete type name has been registered. -/
def registered (reg : Registry) (tn : String) : Bool :=
  reg.contains tn

/-- One gob message on the wire: either a well-formed self-describing
stream of an `entry`, or bytes that do not decode as one. -/
inductive Payload
  | stream (e : entry)
  | malformed (raw : List Nat)
deriving DecidableEq, Repr

/-- A byte string as the adapter sees it: a concatenation of gob
messages (possibly empty, possibly malformed). -/
abbrev Bytes := List Payload

/-- gob encode of an `entry` into one message.  Encoding fails exactly
when the interface field holds a non-nil value of an unregistered
concrete type; a nil interface field is a zero value and is omitted,
so it encodes without consulting the registry. -/
def gobEncodeEntry (reg : Registry) (e : entry) : Except String Payload :=
  match e.V with
  | none => .ok (.stream e)
  | some v =>
    if registered reg v.typeName then .ok (.stream e)
    else .error ("gob: type not registered for interface: " ++ v.typeName)

/-- gob decode of one message back into an `entry`: fails on malformed
input or when the transmitted concrete type is not in the registry. -/
def gobDecodeEntry (reg : Registry) (p : Payload) : Except String entry :=
  match p with
  | .stream e =>
    match e.V with
    | none => .ok e
    | some v =>
      if registered reg v.typeName then .ok e
      else .error ("gob: name not registered for interface: " ++ v.typeName)
  | .malformed _ => .error "gob: unknown type id or corrupted data"

/-- Source `gob.NewDecoder(bytes.NewBuffer(v)).Decode(&e)`: reads the first
message of the byte string; empty input is an EOF error, trailing data
after the first message is ignored. -/
def decodeBytes (reg : Registry) (bs : Bytes) : Except String entry :=
  match bs with
  | [] => .error "EOF"
  | p :: _ => gobDecodeEntry reg p

/-- A `*bytes.Buffer`: its current contents, as the gob messages
written since the last `Reset` (`[]` is an empty buffer). -/
structure Buffer where
  content : Bytes
deriving DecidableEq, Repr

/-- Source `bytes.Buffer.Reset`: drop the contents. -/
def Buffer.Reset (_ : Buffer) : Buffer :=
  { content := [] }

/-- The free list held by `bufPool` (a `sync.Pool` of `*bytes.Buffer`). -/
abbrev BufPool := List Buffer

/-- Source `acquireBuffer`: pop a pooled buffer, or let the pool's `New` make a
fresh empty one. -/
def acquireBuffer (pool : BufPool) : Buffer × BufPool :=
  match pool with
  | [] => ({ content := [] }, [])
  | b :: rest => (b, rest)

/-- Source `releaseBuffer`: a nil pointer is ignored; otherwise the buffer is
`Reset` and put back into the pool. -/
def releaseBuffer (b : Option Buffer) (pool : BufPool) : BufPool :=
  match b with
  | none => pool
  | some b => b.Reset :: pool

/-- An error value surfaced by the go-redis client, identified by its
`Error()` message. -/
structure StoreErr where
  msg : String
deriving DecidableEq, Repr

/-- The `redis: nil` sentinel the client returns for a missing key. -/
def redisNil : StoreErr :=
  { msg := "redis: nil" }

/-- Source `notacacheMiss`: maps the `redis: nil` sentinel to no error and
passes every other error through. -/
def notacacheMiss (err : Option StoreErr) : Option StoreErr :=
  match err with
  | some e => if e.msg = "redis: nil" then none else some e
  | none => none

/-- The go-redis client at the adapter's boundary: the reply each
command would produce in the current state of the store/connection. -/
structure RedisClient where
  getReply : String → Except StoreErr Bytes
  setReply : String → Bytes → Duration → Option StoreErr
  delReply : String → Option StoreErr
  existsReply : String → Except StoreErr Int
  expireReply : String → Duration → Option StoreErr

/-- Type `cache.EvictionMode` of the aah cache contract. -/
inductive EvictionMode
  | evictionModeTTL
  | evictionModeSlide
deriving DecidableEq, Repr

/-- Type `cache.Config`: the per-instance options `Provider.Create` receives. -/
structure Config where
  Name : String
  EvictionMode : EvictionMode
deriving DecidableEq, Repr

/-- The `Provider`, reduced to the fields the cache operations read:
the shared mutable `cfg` and the client handle. -/
structure Provider where
  cfg : Config
  client : RedisClient

/-- The `redisCache` handle: its captured key prefix.  The `p` field
(pointer to the shared `Provider`) is modelled by passing the current
`Provider` to each method. -/
structure redisCache where
  keyPrefix : String
deriving DecidableEq, Repr

/-- Source `Provider.Create`: stores the given config into the provider (shared
by every handle) and returns a handle whose prefix is `cfg.Name + "-"`. -/
def Provider.Create (p : Provider) (cfg : Config) : Provider × redisCache :=
  ({ p with cfg := cfg }, { keyPrefix := cfg.Name ++ "-" })

/-- Source `redisCache.Name`: reads the name from the provider's current config. -/
def redisCache.Name (p : Provider) (_ : redisCache) : String :=
  p.cfg.Name

/-- A command the adapter issues to the store, reified for reasoning
about side effects. -/
inductive Cmd
  | get (k : String)
  | set (k : String) (bs : Bytes) (d : Duration)
  | del (k : String)
  | expire (k : String) (d : Duration)
  | existsQ (k : String)
deriving DecidableEq, Repr

/-- What a `Get` call produced: the returned `interface{}` value, the
commands it issued, and the error messages it logged. -/
structure GetResult where
  value : Option GoVal
  cmds : List Cmd
  logged : List String
deriving DecidableEq, Repr

/-- Source `redisCache.Get`: prefix the key, read bytes; any read error
(including the miss sentinel) yields nil, a non-miss error is logged;
decode failure is logged and yields nil; in sliding mode a successful
read re-arms `EXPIRE` with the decoded TTL, logging a refresh failure
without affecting the returned value. -/
def redisCache.Get (reg : Registry) (p : Provider) (r : redisCache)
    (k : String) : GetResult :=
  let pk := r.keyPrefix ++ k
  match p.client.getReply pk with
  | .error err =>
    if (notacacheMiss (some err)).isSome then
      { value := none, cmds := [.get pk]
        logged := ["aah/cache/" ++ p.cfg.Name ++ ": key(" ++ k ++ ") " ++ err.msg] }
    else
      { value := none, cmds := [.get pk], logged := [] }
  | .ok bs =>
    match decodeBytes reg bs with
    | .error msg =>
      { value := none, cmds := [.get pk]
        logged := ["aah/cache/" ++ p.cfg.Name ++ ": " ++ msg] }
    | .ok e =>
      if p.cfg.EvictionMode = .evictionModeSlide then
        match p.client.expireReply pk e.D with
        | some err =>
          { value := e.V, cmds := [.get pk, .expire pk e.D]
            logged := ["aah/cache/" ++ p.cfg.Name ++ ": key(" ++ k ++ ") " ++ err.msg] }
        | none =>
          { value := e.V, cmds := [.get pk, .expire pk e.D], logged := [] }
      else
        { value := e.V, cmds := [.get pk], logged := [] }

/-- What a `Put` call produced: the returned error (if any), the
commands issued, and the buffer pool after the call. -/
structure PutResult where
  err : Option String
  cmds : List Cmd
  pool : BufPool
deriving DecidableEq, Repr

/-- Source `redisCache.Put`: build `entry{D, V}`, acquire a buffer, gob-encode
into it; on encode failure return the wrapped error (the buffer is
dropped, not released); otherwise `SET` the buffer's bytes with TTL,
release the buffer, and return the write's error verbatim. -/
def redisCache.Put (reg : Registry) (p : Provider) (r : redisCache)
    (k : String) (v : Option GoVal) (d : Duration) (pool : BufPool) : PutResult :=
  let e : entry := { D := d, V := v }
  let ap := acquireBuffer pool
  match gobEncodeEntry reg e with
  | .error msg =>
    { err := some ("aah/cache/" ++ p.cfg.Name ++ ": " ++ msg)
      cmds := [], pool := ap.2 }
  | .ok payload =>
    let buf : Buffer := { content := ap.1.content ++ [payload] }
    let setErr := p.client.setReply (r.keyPrefix ++ k) buf.content d
    { err := setErr.map (fun e => e.msg)
      cmds := [.set (r.keyPrefix ++ k) buf.content d]
      pool := releaseBuffer (some buf) ap.2 }

/-- What a `GetOrPut` call produced. -/
structure GetOrPutResult where
  value : Option GoVal
  err : Option String
  cmds : List Cmd
  pool : BufPool
deriving DecidableEq, Repr

/-- Source `redisCache.GetOrPut`: `Get` first; on nil, `Put` the supplied value
and return it unless the `Put` failed, in which case that error is
propagated; a non-nil `Get` result is returned with no error and no write. -/
def redisCache.GetOrPut (reg : Registry) (p : Provider) (r : redisCache)
    (k : String) (v : Option GoVal) (d : Duration) (pool : BufPool) :
    GetOrPutResult :=
  let g := redisCache.Get reg p r k
  match g.value with
  | none =>
    let pr := redisCache.Put reg p r k v d pool
    match pr.err with
    | some msg =>
      { value := none, err := some msg, cmds := g.cmds ++ pr.cmds, pool := pr.pool }
    | none =>
      { value := v, err := none, cmds := g.cmds ++ pr.cmds, pool := pr.pool }
  | some ev =>
    { value := some ev, err := none, cmds := g.cmds, pool := pool }

/-- Source `redisCache.Delete`: `DEL` the prefixed key; the miss sentinel is
success, any other failure is wrapped and returned. -/
def redisCache.Delete (p : Provider) (r : redisCache) (k : String) :
    Option String × List Cmd :=
  let pk := r.keyPrefix ++ k
  match notacacheMiss (p.client.delReply pk) with
  | some e =>
    (some ("aah/cache/" ++ p.cfg.Name ++ ": key(" ++ k ++ ") " ++ e.msg), [.del pk])
  | none => (none, [.del pk])

/-- Source `redisCache.Exists`: `EXISTS` on the prefixed key; a store error is
reported as `false`, otherwise the count is compared with 1. -/
def redisCache.Exists (p : Provider) (r : redisCache) (k : String) : Bool :=
  match p.client.existsReply (r.keyPrefix ++ k) with
  | .error _ => false
  | .ok n => n == 1

/-- The remote store's keyspace: physical key to stored byte string. -/
abbrev Store := String → Option Bytes

/-- The `SET` semantics on the store. -/
def Store.set (s : Store) (k : String) (bs : Bytes) : Store :=
  fun k2 => if k2 = k then some bs else s k2

/-- The `DEL` semantics on the store. -/
def Store.del (s : Store) (k : String) : Store :=
  fun k2 => if k2 = k then none else s k2

/-- Effect of one issued command on the store (TTL passage is not
modelled, so `expire` leaves the keyspace unchanged). -/
def applyCmd (s : Store) : Cmd → Store
  | .set k bs _ => s.set k bs
  | .del k => s.del k
  | _ => s

/-- Effect of a command trace on the store. -/
def applyCmds (s : Store) (cs : List Cmd) : Store :=
  cs.foldl applyCmd s

/-- The client of a healthy connection over store `s`: `GET` answers
from the keyspace (missing key is the `redis: nil` sentinel), writes
and expirations succeed, `EXISTS` counts the key. -/
def healthyClient (s : Store) : RedisClient where
  getReply k :=
    match s k with
    | some bs => .ok bs
    | none => .error redisNil
  setReply _ _ _ := none
  delReply _ := none
  existsReply k := .ok (if (s k).isSome then 1 else 0)
  expireReply _ _ := none

/-- Every buffer handed out of a pool whose free list holds only reset
buffers is empty. -/
theorem acquireBuffer_clean (pool : BufPool) (hpool : ∀ b ∈ pool, b.content = []) :
    (acquireBuffer pool).1.content = [] := by
  cases pool with
  | nil => rfl
  | cons b rest => exact hpool b (List.mem_cons_self b rest)

/-- Claim C1: a successful Put(k, v, d) followed by Get(k) on the store
updated only by Put's own write returns a value equal to v, whenever
v's concrete type is registered with the gob codec: the encoding Put
performs is inverted by the decoding Get performs. -/
theorem putGet_roundtrip (reg : Registry) (cfg : Config) (r : redisCache)
    (s : Store) (k : String) (v : Option GoVal) (d : Duration) (pool : BufPool)
    (hreg : ∀ gv, v = some gv → registered reg gv.typeName = true)
    (hpool : ∀ b ∈ pool, b.content = []) :
    (redisCache.Put reg ⟨cfg, healthyClient s⟩ r k v d pool).err = none ∧
    (redisCache.Get reg
      ⟨cfg, healthyClient
        (applyCmds s (redisCache.Put reg ⟨cfg, healthyClient s⟩ r k v d pool).cmds)⟩
      r k).value = v := by
  have hap := acquireBuffer_clean pool hpool
  obtain ⟨nm, mode⟩ := cfg
  cases v with
  | none =>
    cases mode <;>
      simp [redisCache.Put, redisCache.Get, gobEncodeEntry, gobDecodeEntry,
        decodeBytes, applyCmds, applyCmd, Store.set, healthyClient, hap,
        releaseBuffer, Buffer.Reset]
  | some gv =>
    have hr : registered reg gv.typeName = true := hreg gv rfl
    cases mode <;>
      simp [redisCache.Put, redisCache.Get, gobEncodeEntry, gobDecodeEntry,
        decodeBytes, applyCmds, applyCmd, Store.set, healthyClient, hap, hr,
        releaseBuffer, Buffer.Reset]

/-- Witness for C1 at a concrete registered value over the empty store. -/
theorem putGet_roundtrip_witness :
    (redisCache.Put ["string"] ⟨⟨"c", .evictionModeTTL⟩, healthyClient (fun _ => none)⟩
      ⟨"c-"⟩ "k" (some ⟨"string", "hi"⟩) 5 []).err = none ∧
    (redisCache.Get ["string"]
      ⟨⟨"c", .evictionModeTTL⟩, healthyClient
        (applyCmds (fun _ => none)
          (redisCache.Put ["string"] ⟨⟨"c", .evictionModeTTL⟩, healthyClient (fun _ => none)⟩
            ⟨"c-"⟩ "k" (some ⟨"string", "hi"⟩) 5 []).cmds)⟩
      ⟨"c-"⟩ "k").value = some ⟨"string", "hi"⟩ :=
  putGet_roundtrip ["string"] ⟨"c", .evictionModeTTL⟩ ⟨"c-"⟩ (fun _ => none) "k"
    (some ⟨"string", "hi"⟩) 5 []
    (by intro gv h; injection h with h2; subst h2; decide)
    (by intro b hb; cases hb)

/-- Characterisation of the value a `Get` returns: nil on any read
error or decode failure, the decoded entry's `V` otherwise, in either
eviction mode and irrespective of the `EXPIRE` refresh outcome. -/
theorem get_value_eq (reg : Registry) (p : Provider) (r : redisCache) (k : String) :
    (redisCache.Get reg p r k).value =
      (match p.client.getReply (r.keyPrefix ++ k) with
       | .error _ => none
       | .ok bs =>
         match decodeBytes reg bs with
         | .error _ => none
         | .ok e => e.V) := by
  simp only [redisCache.Get]
  split
  · split <;> rfl
  · split
    · rfl
    · split
      · split <;> rfl
      · rfl

/-- Claim C2: Get surfaces no error: a miss-sentinel reply, any other
store-level failure and any decode failure each yield nil, and a
non-nil result can only come from a successfully read and successfully
decoded entry. -/
theorem get_never_errors (reg : Registry) (p : Provider) (r : redisCache) (k : String) :
    (∀ err, p.client.getReply (r.keyPrefix ++ k) = .error err →
      (redisCache.Get reg p r k).value = none) ∧
    (∀ bs msg, p.client.getReply (r.keyPrefix ++ k) = .ok bs →
      decodeBytes reg bs = .error msg →
      (redisCache.Get reg p r k).value = none) ∧
    (∀ gv, (redisCache.Get reg p r k).value = some gv →
      ∃ bs e, p.client.getReply (r.keyPrefix ++ k) = .ok bs ∧
        decodeBytes reg bs = .ok e ∧ e.V = some gv) := by
  refine ⟨?_, ?_, ?_⟩
  · intro err herr
    rw [get_value_eq, herr]
  · intro bs msg hok hdec
    rw [get_value_eq]
    simp only [hok, hdec]
  · intro gv hv
    have hc := get_value_eq reg p r k
    cases hok : p.client.getReply (r.keyPrefix ++ k) with
    | error err =>
      simp only [hok] at hc
      rw [hc] at hv
      cases hv
    | ok bs =>
      simp only [hok] at hc
      cases hdec : decodeBytes reg bs with
      | error m =>
        simp only [hdec] at hc
        rw [hc] at hv
        cases hv
      | ok e =>
        simp only [hdec] at hc
        rw [hc] at hv
        exact ⟨bs, e, rfl, hdec, hv⟩

/-- Witness for C2: a store-level failure (not the miss sentinel)
yields nil from Get. -/
theorem get_never_errors_witness :
    (redisCache.Get []
      ⟨⟨"c", .evictionModeTTL⟩,
        ⟨fun _ => .error ⟨"boom"⟩, fun _ _ _ => none, fun _ => none,
          fun _ => .ok 0, fun _ _ => none⟩⟩
      ⟨"c-"⟩ "k").value = none :=
  (get_never_errors [] ⟨⟨"c", .evictionModeTTL⟩,
      ⟨fun _ => .error ⟨"boom"⟩, fun _ _ _ => none, fun _ => none,
        fun _ => .ok 0, fun _ _ => none⟩⟩
    ⟨"c-"⟩ "k").1 ⟨"boom"⟩ rfl

/-- Claim C3: Put fails with the wrapped gob encoding error and issues
no store command when the value's concrete type is unregistered; when
encoding succeeds, Put issues the SET and returns exactly the store's
write error (or success) to the caller. -/
theorem put_error_paths (reg : Registry) (p : Provider) (r : redisCache)
    (k : String) (v : Option GoVal) (d : Duration) (pool : BufPool) :
    (∀ gv, v = some gv → registered reg gv.typeName = false →
      (redisCache.Put reg p r k v d pool).err =
        some ("aah/cache/" ++ p.cfg.Name ++ ": " ++
          ("gob: type not registered for interface: " ++ gv.typeName)) ∧
      (redisCache.Put reg p r k v d pool).cmds = []) ∧
    (∀ pl, gobEncodeEntry reg { D := d, V := v } = .ok pl →
      (redisCache.Put reg p r k v d pool).err =
        (p.client.setReply (r.keyPrefix ++ k) ((acquireBuffer pool).1.content ++ [pl]) d).map
          (fun e => e.msg) ∧
      (redisCache.Put reg p r k v d pool).cmds =
        [Cmd.set (r.keyPrefix ++ k) ((acquireBuffer pool).1.content ++ [pl]) d]) := by
  constructor
  · intro gv hv hunreg
    subst hv
    simp [redisCache.Put, gobEncodeEntry, hunreg]
  · intro pl henc
    simp [redisCache.Put, henc]

/-- Witness for C3: a value of unregistered type is rejected with the
wrapped error and no command is issued. -/
theorem put_error_paths_witness :
    (redisCache.Put [] ⟨⟨"c", .evictionModeTTL⟩, healthyClient (fun _ => none)⟩
        ⟨"c-"⟩ "k" (some ⟨"string", "hi"⟩) 5 []).err =
      some ("aah/cache/" ++ "c" ++ ": " ++
        ("gob: type not registered for interface: " ++ "string")) ∧
    (redisCache.Put [] ⟨⟨"c", .evictionModeTTL⟩, healthyClient (fun _ => none)⟩
        ⟨"c-"⟩ "k" (some ⟨"string", "hi"⟩) 5 []).cmds = [] :=
  (put_error_paths [] ⟨⟨"c", .evictionModeTTL⟩, healthyClient (fun _ => none)⟩
      ⟨"c-"⟩ "k" (some ⟨"string", "hi"⟩) 5 []).1 ⟨"string", "hi"⟩ rfl (by decide)

/-- Claim C4: GetOrPut takes the put branch exactly when Get yields
nil, returning the supplied value on Put success and propagating a Put
failure; a found value is returned with no error and no further
commands beyond Get's own; any error GetOrPut returns is Put's error,
never a Get failure. -/
theorem getOrPut_spec (reg : Registry) (p : Provider) (r : redisCache)
    (k : String) (v : Option GoVal) (d : Duration) (pool : BufPool) :
    ((redisCache.Get reg p r k).value = none →
      ((redisCache.Put reg p r k v d pool).err = none →
        (redisCache.GetOrPut reg p r k v d pool).value = v ∧
        (redisCache.GetOrPut reg p r k v d pool).err = none) ∧
      (∀ msg, (redisCache.Put reg p r k v d pool).err = some msg →
        (redisCache.GetOrPut reg p r k v d pool).err = some msg) ∧
      (redisCache.GetOrPut reg p r k v d pool).cmds =
        (redisCache.Get reg p r k).cmds ++ (redisCache.Put reg p r k v d pool).cmds) ∧
    (∀ gv, (redisCache.Get reg p r k).value = some gv →
      (redisCache.GetOrPut reg p r k v d pool).value = some gv ∧
      (redisCache.GetOrPut reg p r k v d pool).err = none ∧
      (redisCache.GetOrPut reg p r k v d pool).cmds = (redisCache.Get reg p r k).cmds) ∧
    (∀ msg, (redisCache.GetOrPut reg p r k v d pool).err = some msg →
      (redisCache.Get reg p r k).value = none ∧
      (redisCache.Put reg p r k v d pool).err = some msg) := by
  refine ⟨?_, ?_, ?_⟩
  · intro hg
    refine ⟨?_, ?_, ?_⟩
    · intro hp
      simp [redisCache.GetOrPut, hg, hp]
    · intro msg hp
      simp [redisCache.GetOrPut, hg, hp]
    · simp only [redisCache.GetOrPut, hg]
      cases hp : (redisCache.Put reg p r k v d pool).err <;> simp [hp]
  · intro gv hg
    simp [redisCache.GetOrPut, hg]
  · intro msg hmsg
    simp only [redisCache.GetOrPut] at hmsg
    cases hg : (redisCache.Get reg p r k).value with
    | some gv => simp [hg] at hmsg
    | none =>
      simp only [hg] at hmsg
      cases hp : (redisCache.Put reg p r k v d pool).err with
      | none => simp [hp] at hmsg
      | some m =>
        simp [hp] at hmsg
        subst hmsg
        exact ⟨rfl, rfl⟩

/-- Witness for C4: on an absent key over a healthy store, GetOrPut
stores and returns the supplied value with no error. -/
theorem getOrPut_spec_witness :
    (redisCache.GetOrPut ["string"]
        ⟨⟨"c", .evictionModeTTL⟩, healthyClient (fun _ => none)⟩
        ⟨"c-"⟩ "k" (some ⟨"string", "hi"⟩) 5 []).value = some ⟨"string", "hi"⟩ ∧
    (redisCache.GetOrPut ["string"]
        ⟨⟨"c", .evictionModeTTL⟩, healthyClient (fun _ => none)⟩
        ⟨"c-"⟩ "k" (some ⟨"string", "hi"⟩) 5 []).err = none :=
  ((getOrPut_spec ["string"] ⟨⟨"c", .evictionModeTTL⟩, healthyClient (fun _ => none)⟩
      ⟨"c-"⟩ "k" (some ⟨"string", "hi"⟩) 5 []).1 (by decide)).1 (by decide)

/-- Claim C6: in sliding mode a Get that reads and decodes an entry
issues EXPIRE on the prefixed key with exactly the decoded TTL, and
its returned value does not depend on the refresh outcome; in fixed
mode Get never issues an EXPIRE. -/
theorem sliding_expire_spec (reg : Registry) (p : Provider) (r : redisCache)
    (k : String) :
    (∀ bs e, p.cfg.EvictionMode = .evictionModeSlide →
      p.client.getReply (r.keyPrefix ++ k) = .ok bs →
      decodeBytes reg bs = .ok e →
      (redisCache.Get reg p r k).cmds =
        [Cmd.get (r.keyPrefix ++ k), Cmd.expire (r.keyPrefix ++ k) e.D] ∧
      (redisCache.Get reg p r k).value = e.V) ∧
    (p.cfg.EvictionMode ≠ .evictionModeSlide →
      ∀ pk2 d2, Cmd.expire pk2 d2 ∉ (redisCache.Get reg p r k).cmds) := by
  constructor
  · intro bs e hm hg hd
    simp only [redisCache.Get, hg, hd, hm, if_true]
    cases p.client.expireReply (r.keyPrefix ++ k) e.D <;> simp
  · intro hm pk2 d2
    simp only [redisCache.Get]
    split
    · split <;> simp
    · split
      · simp
      · split
        · rename_i hs
          exact absurd hs hm
        · simp

/-- Witness for C6: with sliding mode over a healthy store holding one
entry, Get issues EXPIRE with the entry's stored TTL and returns its
value. -/
theorem sliding_expire_spec_witness :
    (redisCache.Get ["string"]
        ⟨⟨"c", .evictionModeSlide⟩,
          healthyClient (fun k2 =>
            if k2 = "c-k" then
              some [Payload.stream { D := 7, V := some ⟨"string", "hi"⟩ }]
            else none)⟩
        ⟨"c-"⟩ "k").cmds = [Cmd.get "c-k", Cmd.expire "c-k" 7] ∧
    (redisCache.Get ["string"]
        ⟨⟨"c", .evictionModeSlide⟩,
          healthyClient (fun k2 =>
            if k2 = "c-k" then
              some [Payload.stream { D := 7, V := some ⟨"string", "hi"⟩ }]
            else none)⟩
        ⟨"c-"⟩ "k").value = some ⟨"string", "hi"⟩ :=
  (sliding_expire_spec ["string"]
      ⟨⟨"c", .evictionModeSlide⟩,
        healthyClient (fun k2 =>
          if k2 = "c-k" then
            some [Payload.stream { D := 7, V := some ⟨"string", "hi"⟩ }]
          else none)⟩
      ⟨"c-"⟩ "k").1 [Payload.stream { D := 7, V := some ⟨"string", "hi"⟩ }]
    { D := 7, V := some ⟨"string", "hi"⟩ } rfl rfl rfl

/-- Claim C7: Delete succeeds both when the store reports no error and
when it reports the miss sentinel; only a non-sentinel store failure
becomes a caller-visible (wrapped) error. -/
theorem delete_idempotent (p : Provider) (r : redisCache) (k : String) :
    (p.client.delReply (r.keyPrefix ++ k) = none →
      (redisCache.Delete p r k).1 = none) ∧
    (p.client.delReply (r.keyPrefix ++ k) = some redisNil →
      (redisCache.Delete p r k).1 = none) ∧
    (∀ e, p.client.delReply (r.keyPrefix ++ k) = some e → e.msg ≠ "redis: nil" →
      (redisCache.Delete p r k).1 =
        some ("aah/cache/" ++ p.cfg.Name ++ ": key(" ++ k ++ ") " ++ e.msg)) := by
  refine ⟨?_, ?_, ?_⟩
  · intro h
    simp [redisCache.Delete, h, notacacheMiss]
  · intro h
    simp [redisCache.Delete, h, notacacheMiss, redisNil]
  · intro e h hne
    simp [redisCache.Delete, h, notacacheMiss, hne]

/-- Witness for C7: Delete over a healthy store (where deleting an
absent key is not an error) returns success. -/
theorem delete_idempotent_witness :
    (redisCache.Delete ⟨⟨"c", .evictionModeTTL⟩, healthyClient (fun _ => none)⟩
      ⟨"c-"⟩ "k").1 = none :=
  (delete_idempotent ⟨⟨"c", .evictionModeTTL⟩, healthyClient (fun _ => none)⟩
    ⟨"c-"⟩ "k").1 rfl

/-- Claim C8: releaseBuffer only ever inserts a reset (empty) buffer
into the pool; on Put's encode-error exit the acquired buffer is
dropped (pool unchanged beyond the acquisition) and on the normal exit
a cleared buffer is returned, so every buffer in the pool after Put
was either already pooled or is empty — no stale content re-enters. -/
theorem put_buffer_discipline (reg : Registry) (p : Provider) (r : redisCache)
    (k : String) (v : Option GoVal) (d : Duration) (pool : BufPool) :
    (∀ b pool2, releaseBuffer (some b) pool2 = { content := [] } :: pool2) ∧
    ((redisCache.Put reg p r k v d pool).pool = (acquireBuffer pool).2 ∨
      (redisCache.Put reg p r k v d pool).pool =
        { content := [] } :: (acquireBuffer pool).2) ∧
    (∀ b ∈ (redisCache.Put reg p r k v d pool).pool, b ∈ pool ∨ b.content = []) := by
  have hsub : ∀ b ∈ (acquireBuffer pool).2, b ∈ pool := by
    cases pool with
    | nil => intro b hb; cases hb
    | cons b0 rest => intro b hb; exact List.mem_cons_of_mem b0 hb
  refine ⟨fun b pool2 => rfl, ?_, ?_⟩
  · cases henc : gobEncodeEntry reg { D := d, V := v } with
    | error m => left; simp [redisCache.Put, henc]
    | ok pl => right; simp [redisCache.Put, henc, releaseBuffer, Buffer.Reset]
  · intro b hb
    cases henc : gobEncodeEntry reg { D := d, V := v } with
    | error m =>
      simp only [redisCache.Put, henc] at hb
      exact Or.inl (hsub b hb)
    | ok pl =>
      simp only [redisCache.Put, henc, releaseBuffer, Buffer.Reset] at hb
      rcases List.mem_cons.mp hb with h | h
      · exact Or.inr (by rw [h])
      · exact Or.inl (hsub b h)

/-- Witness for C8: after a successful Put from a pool holding one
dirty buffer, the only pooled buffer is empty. -/
theorem put_buffer_discipline_witness :
    ({ content := [] } : Buffer) ∈
      ([{ content := [Payload.malformed [9]] }] : BufPool) ∨
    Buffer.content { content := [] } = [] :=
  (put_buffer_discipline [] ⟨⟨"c", .evictionModeTTL⟩, healthyClient (fun _ => none)⟩
      ⟨"c-"⟩ "k" none 5 [{ content := [Payload.malformed [9]] }]).2.2
    { content := [] } (by decide)

/-- Separator-embedding injectivity at the character-list level: two
distinct separator-free prefixes followed by the separator can never
produce the same string, whatever the suffixes. -/
theorem sep_append_inj : ∀ (a b k1 k2 : List Char), a ≠ b →
    ('-' : Char) ∉ a → ('-' : Char) ∉ b →
    a ++ '-' :: k1 ≠ b ++ '-' :: k2 := by
  intro a
  induction a with
  | nil =>
    intro b k1 k2 hne ha hb h
    cases b with
    | nil => exact hne rfl
    | cons c b' =>
      simp only [List.nil_append, List.cons_append] at h
      injection h with h1 h2
      subst h1
      exact hb (List.mem_cons_self _ _)
  | cons c a' ih =>
    intro b k1 k2 hne ha hb h
    cases b with
    | nil =>
      simp only [List.nil_append, List.cons_append] at h
      injection h with h1 h2
      subst h1
      exact ha (List.mem_cons_self _ _)
    | cons c2 b' =>
      simp only [List.cons_append] at h
      injection h with h1 h2
      subst h1
      have ha' : ('-' : Char) ∉ a' := fun hm => ha (List.mem_cons_of_mem _ hm)
      have hb' : ('-' : Char) ∉ b' := fun hm => hb (List.mem_cons_of_mem _ hm)
      have hne' : a' ≠ b' := fun heq => hne (by rw [heq])
      exact ih b' k1 k2 hne' ha' hb' h2

/-- Physical keys of two handles created under distinct separator-free
names never coincide. -/
theorem create_prefix_disjoint (p1 p2 : Provider) (cfgA cfgB : Config)
    (k1 k2 : String) (hne : cfgA.Name ≠ cfgB.Name)
    (ha : ('-' : Char) ∉ cfgA.Name.data) (hb : ('-' : Char) ∉ cfgB.Name.data) :
    (Provider.Create p1 cfgA).2.keyPrefix ++ k1 ≠
      (Provider.Create p2 cfgB).2.keyPrefix ++ k2 := by
  intro h
  have hd := congrArg String.data h
  simp only [Provider.Create, String.data_append, List.append_assoc] at hd
  simp only [List.singleton_append] at hd
  refine sep_append_inj cfgA.Name.data cfgB.Name.data k1.data k2.data ?_ ha hb hd
  intro heq
  exact hne (String.ext heq)

/-- A Get against a healthy client only depends on the store at the
handle's own prefixed key. -/
theorem get_healthy_congr (reg : Registry) (cfg : Config) (r : redisCache)
    (k : String) (s1 s2 : Store) (h : s1 (r.keyPrefix ++ k) = s2 (r.keyPrefix ++ k)) :
    redisCache.Get reg ⟨cfg, healthyClient s1⟩ r k =
      redisCache.Get reg ⟨cfg, healthyClient s2⟩ r k := by
  simp only [redisCache.Get, healthyClient]
  rw [h]

/-- Claim C5, counterexample to the stated key-disjointness: the names
"a" and "a-b" are distinct, yet the physical key of logical key "b-c"
under the first handle coincides with that of "c" under the second,
and a Get through the second handle returns the value the first one
put. -/
theorem namespace_isolation_cex :
    ("a" : String) ≠ "a-b" ∧
    (Provider.Create ⟨⟨"a", .evictionModeTTL⟩, healthyClient (fun _ => none)⟩
        ⟨"a", .evictionModeTTL⟩).2.keyPrefix ++ "b-c" =
      (Provider.Create ⟨⟨"a-b", .evictionModeTTL⟩, healthyClient (fun _ => none)⟩
          ⟨"a-b", .evictionModeTTL⟩).2.keyPrefix ++ "c" ∧
    (redisCache.Get ["string"]
        ⟨⟨"a-b", .evictionModeTTL⟩,
          healthyClient (applyCmds (fun _ => none)
            (redisCache.Put ["string"]
              ⟨⟨"a", .evictionModeTTL⟩, healthyClient (fun _ => none)⟩
              (Provider.Create ⟨⟨"a", .evictionModeTTL⟩, healthyClient (fun _ => none)⟩
                ⟨"a", .evictionModeTTL⟩).2 "b-c" (some ⟨"string", "hi"⟩) 5 []).cmds)⟩
        (Provider.Create ⟨⟨"a-b", .evictionModeTTL⟩, healthyClient (fun _ => none)⟩
          ⟨"a-b", .evictionModeTTL⟩).2 "c").value = some ⟨"string", "hi"⟩ := by
  refine ⟨by decide, by decide, by decide⟩

/-- Claim C5 (amended): for distinct instance names that do not contain
the separator character, the prefixed keyspaces are disjoint, and a
Put through instance A leaves every Get through instance B (on any
logical key) exactly as it was. -/
theorem namespace_isolation_amended (reg : Registry) (cfgA cfgB : Config)
    (s : Store) (k1 k2 : String) (v : Option GoVal) (d : Duration) (pool : BufPool)
    (hne : cfgA.Name ≠ cfgB.Name)
    (ha : ('-' : Char) ∉ cfgA.Name.data) (hb : ('-' : Char) ∉ cfgB.Name.data) :
    ((Provider.Create ⟨cfgA, healthyClient s⟩ cfgA).2.keyPrefix ++ k1 ≠
      (Provider.Create ⟨cfgB, healthyClient s⟩ cfgB).2.keyPrefix ++ k2) ∧
    redisCache.Get reg
        ⟨cfgB, healthyClient (applyCmds s
          (redisCache.Put reg ⟨cfgA, healthyClient s⟩
            (Provider.Create ⟨cfgA, healthyClient s⟩ cfgA).2 k1 v d pool).cmds)⟩
        (Provider.Create ⟨cfgB, healthyClient s⟩ cfgB).2 k2 =
      redisCache.Get reg ⟨cfgB, healthyClient s⟩
        (Provider.Create ⟨cfgB, healthyClient s⟩ cfgB).2 k2 := by
  have hkey := create_prefix_disjoint (⟨cfgA, healthyClient s⟩ : Provider)
    (⟨cfgB, healthyClient s⟩ : Provider) cfgA cfgB k1 k2 hne ha hb
  refine ⟨hkey, ?_⟩
  apply get_healthy_congr
  cases henc : gobEncodeEntry reg { D := d, V := v } with
  | error m =>
    simp [redisCache.Put, henc, applyCmds]
  | ok pl =>
    simp only [redisCache.Put, henc, applyCmds, List.foldl, applyCmd, Store.set]
    rw [if_neg]
    intro h
    exact hkey (by rw [h])

/-- Witness for the amended C5: concrete separator-free names "a" and
"b"; after A puts under "k", B's Get of "k" still reports a miss. -/
theorem namespace_isolation_amended_witness :
    ((Provider.Create ⟨⟨"a", .evictionModeTTL⟩, healthyClient (fun _ => none)⟩
        ⟨"a", .evictionModeTTL⟩).2.keyPrefix ++ "k" ≠
      (Provider.Create ⟨⟨"b", .evictionModeTTL⟩, healthyClient (fun _ => none)⟩
          ⟨"b", .evictionModeTTL⟩).2.keyPrefix ++ "k") ∧
    redisCache.Get ["string"]
        ⟨⟨"b", .evictionModeTTL⟩, healthyClient (applyCmds (fun _ => none)
          (redisCache.Put ["string"]
            ⟨⟨"a", .evictionModeTTL⟩, healthyClient (fun _ => none)⟩
            (Provider.Create ⟨⟨"a", .evictionModeTTL⟩, healthyClient (fun _ => none)⟩
              ⟨"a", .evictionModeTTL⟩).2 "k" (some ⟨"string", "hi"⟩) 5 []).cmds)⟩
        (Provider.Create ⟨⟨"b", .evictionModeTTL⟩, healthyClient (fun _ => none)⟩
          ⟨"b", .evictionModeTTL⟩).2 "k" =
      redisCache.Get ["string"] ⟨⟨"b", .evictionModeTTL⟩, healthyClient (fun _ => none)⟩
        (Provider.Create ⟨⟨"b", .evictionModeTTL⟩, healthyClient (fun _ => none)⟩
          ⟨"b", .evictionModeTTL⟩).2 "k" :=
  namespace_isolation_amended ["string"] ⟨"a", .evictionModeTTL⟩ ⟨"b", .evictionModeTTL⟩
    (fun _ => none) "k" "k" (some ⟨"string", "hi"⟩) 5 []
    (by decide) (by decide) (by decide)

/-- Claim C9: Create writes its config into the shared provider, so
after a second Create the first handle's Name reports the newer
config's name and its Get follows the newer config's eviction mode
(EXPIRE issued iff the newer mode is sliding), while the first
handle's keyPrefix keeps the name it was created with. -/
theorem shared_cfg_aliasing (reg : Registry) (p0 : Provider) (cfgA cfgB : Config)
    (k : String) :
    (Provider.Create (Provider.Create p0 cfgA).1 cfgB).1.cfg = cfgB ∧
    redisCache.Name (Provider.Create (Provider.Create p0 cfgA).1 cfgB).1
        (Provider.Create p0 cfgA).2 = cfgB.Name ∧
    (Provider.Create p0 cfgA).2.keyPrefix = cfgA.Name ++ "-" ∧
    (∀ bs e,
      (Provider.Create (Provider.Create p0 cfgA).1 cfgB).1.client.getReply
          ((Provider.Create p0 cfgA).2.keyPrefix ++ k) = .ok bs →
      decodeBytes reg bs = .ok e →
      (Cmd.expire ((Provider.Create p0 cfgA).2.keyPrefix ++ k) e.D ∈
          (redisCache.Get reg (Provider.Create (Provider.Create p0 cfgA).1 cfgB).1
            (Provider.Create p0 cfgA).2 k).cmds ↔
        cfgB.EvictionMode = .evictionModeSlide)) := by
  refine ⟨rfl, rfl, rfl, ?_⟩
  intro bs e hg hd
  simp only [Provider.Create] at hg
  constructor
  · intro hmem
    by_contra hmode
    simp [redisCache.Get, Provider.Create, hg, hd, hmode] at hmem
  · intro hmode
    cases hexp : p0.client.expireReply (cfgA.Name ++ "-" ++ k) e.D <;>
      simp [redisCache.Get, Provider.Create, hg, hd, hmode, hexp]

/-- Witness for C9: after Create("a", fixed) then Create("b", sliding)
on one provider, the first handle reports name "b", keeps prefix "a-",
and its Get re-arms EXPIRE (sliding, per the newer config). -/
theorem shared_cfg_aliasing_witness :
    redisCache.Name
        (Provider.Create
          (Provider.Create
            ⟨⟨"z", .evictionModeTTL⟩,
              healthyClient (fun k2 =>
                if k2 = "a-k" then
                  some [Payload.stream { D := 7, V := some ⟨"string", "hi"⟩ }]
                else none)⟩
            ⟨"a", .evictionModeTTL⟩).1
          ⟨"b", .evictionModeSlide⟩).1
        (Provider.Create
          ⟨⟨"z", .evictionModeTTL⟩,
            healthyClient (fun k2 =>
              if k2 = "a-k" then
                some [Payload.stream { D := 7, V := some ⟨"string", "hi"⟩ }]
              else none)⟩
          ⟨"a", .evictionModeTTL⟩).2 = "b" ∧
    (Provider.Create
        ⟨⟨"z", .evictionModeTTL⟩,
          healthyClient (fun k2 =>
            if k2 = "a-k" then
              some [Payload.stream { D := 7, V := some ⟨"string", "hi"⟩ }]
            else none)⟩
        ⟨"a", .evictionModeTTL⟩).2.keyPrefix = "a" ++ "-" ∧
    Cmd.expire
        ((Provider.Create
          ⟨⟨"z", .evictionModeTTL⟩,
            healthyClient (fun k2 =>
              if k2 = "a-k" then
                some [Payload.stream { D := 7, V := some ⟨"string", "hi"⟩ }]
              else none)⟩
          ⟨"a", .evictionModeTTL⟩).2.keyPrefix ++ "k") 7 ∈
      (redisCache.Get ["string"]
        (Provider.Create
          (Provider.Create
            ⟨⟨"z", .evictionModeTTL⟩,
              healthyClient (fun k2 =>
                if k2 = "a-k" then
                  some [Payload.stream { D := 7, V := some ⟨"string", "hi"⟩ }]
                else none)⟩
            ⟨"a", .evictionModeTTL⟩).1
          ⟨"b", .evictionModeSlide⟩).1
        (Provider.Create
          ⟨⟨"z", .evictionModeTTL⟩,
            healthyClient (fun k2 =>
              if k2 = "a-k" then
                some [Payload.stream { D := 7, V := some ⟨"string", "hi"⟩ }]
              else none)⟩
          ⟨"a", .evictionModeTTL⟩).2 "k").cmds :=
  ⟨(shared_cfg_aliasing ["string"]
      ⟨⟨"z", .evictionModeTTL⟩,
        healthyClient (fun k2 =>
          if k2 = "a-k" then
            some [Payload.stream { D := 7, V := some ⟨"string", "hi"⟩ }]
          else none)⟩
      ⟨"a", .evictionModeTTL⟩ ⟨"b", .evictionModeSlide⟩ "k").2.1,
   (shared_cfg_aliasing ["string"]
      ⟨⟨"z", .evictionModeTTL⟩,
        healthyClient (fun k2 =>
          if k2 = "a-k" then
            some [Payload.stream { D := 7, V := some ⟨"string", "hi"⟩ }]
          else none)⟩
      ⟨"a", .evictionModeTTL⟩ ⟨"b", .evictionModeSlide⟩ "k").2.2.1,
   (((shared_cfg_aliasing ["string"]
      ⟨⟨"z", .evictionModeTTL⟩,
        healthyClient (fun k2 =>
          if k2 = "a-k" then
            some [Payload.stream { D := 7, V := some ⟨"string", "hi"⟩ }]
          else none)⟩
      ⟨"a", .evictionModeTTL⟩ ⟨"b", .evictionModeSlide⟩ "k").2.2.2
      [Payload.stream { D := 7, V := some ⟨"string", "hi"⟩ }]
      { D := 7, V := some ⟨"string", "hi"⟩ } rfl rfl).mpr rfl)⟩

/-- Claim C10: when the store holds an entry that decodes to a nil
value, Get returns nil, Exists still reports true, and GetOrPut takes
the put branch: it succeeds with the supplied value and its commands
overwrite the stored entry with that value. -/
theorem stored_nil_indistinguishable (reg : Registry) (cfg : Config)
    (r : redisCache) (s : Store) (k : String) (d0 d : Duration) (gv : GoVal)
    (pool : BufPool)
    (hstore : s (r.keyPrefix ++ k) = some [Payload.stream { D := d0, V := none }])
    (hreg : registered reg gv.typeName = true)
    (hpool : ∀ b ∈ pool, b.content = []) :
    (redisCache.Get reg ⟨cfg, healthyClient s⟩ r k).value = none ∧
    redisCache.Exists ⟨cfg, healthyClient s⟩ r k = true ∧
    (redisCache.GetOrPut reg ⟨cfg, healthyClient s⟩ r k (some gv) d pool).value =
      some gv ∧
    (redisCache.GetOrPut reg ⟨cfg, healthyClient s⟩ r k (some gv) d pool).err = none ∧
    applyCmds s
        (redisCache.GetOrPut reg ⟨cfg, healthyClient s⟩ r k (some gv) d pool).cmds
        (r.keyPrefix ++ k) =
      some [Payload.stream { D := d, V := some gv }] := by
  have hap := acquireBuffer_clean pool hpool
  obtain ⟨nm, mode⟩ := cfg
  cases mode <;>
    simp [redisCache.Get, redisCache.GetOrPut, redisCache.Put, redisCache.Exists,
      gobEncodeEntry, gobDecodeEntry, decodeBytes, healthyClient, hstore, hreg, hap,
      applyCmds, applyCmd, Store.set, releaseBuffer, Buffer.Reset]

/-- Witness for C10 at a concrete stored-nil entry. -/
theorem stored_nil_indistinguishable_witness :
    (redisCache.Get ["string"]
        ⟨⟨"c", .evictionModeTTL⟩,
          healthyClient (fun k2 =>
            if k2 = "c-k" then some [Payload.stream { D := 3, V := none }] else none)⟩
        ⟨"c-"⟩ "k").value = none ∧
    redisCache.Exists
        ⟨⟨"c", .evictionModeTTL⟩,
          healthyClient (fun k2 =>
            if k2 = "c-k" then some [Payload.stream { D := 3, V := none }] else none)⟩
        ⟨"c-"⟩ "k" = true ∧
    (redisCache.GetOrPut ["string"]
        ⟨⟨"c", .evictionModeTTL⟩,
          healthyClient (fun k2 =>
            if k2 = "c-k" then some [Payload.stream { D := 3, V := none }] else none)⟩
        ⟨"c-"⟩ "k" (some ⟨"string", "hi"⟩) 5 []).value = some ⟨"string", "hi"⟩ ∧
    (redisCache.GetOrPut ["string"]
        ⟨⟨"c", .evictionModeTTL⟩,
          healthyClient (fun k2 =>
            if k2 = "c-k" then some [Payload.stream { D := 3, V := none }] else none)⟩
        ⟨"c-"⟩ "k" (some ⟨"string", "hi"⟩) 5 []).err = none ∧
    applyCmds
        (fun k2 =>
          if k2 = "c-k" then some [Payload.stream { D := 3, V := none }] else none)
        (redisCache.GetOrPut ["string"]
          ⟨⟨"c", .evictionModeTTL⟩,
            healthyClient (fun k2 =>
              if k2 = "c-k" then some [Payload.stream { D := 3, V := none }] else none)⟩
          ⟨"c-"⟩ "k" (some ⟨"string", "hi"⟩) 5 []).cmds
        (redisCache.keyPrefix ⟨"c-"⟩ ++ "k") =
      some [Payload.stream { D := 5, V := some ⟨"string", "hi"⟩ }] :=
  stored_nil_indistinguishable ["string"] ⟨"c", .evictionModeTTL⟩ ⟨"c-"⟩
    (fun k2 => if k2 = "c-k" then some [Payload.stream { D := 3, V := none }] else none)
    "k" 3 5 ⟨"string", "hi"⟩ [] rfl (by decide) (by intro b hb; cases hb)
